/-
Verification of the iclone-nla-toolkit core algorithms.

This file shallowly embeds the algorithmic core of the repository:

* `MotionBatchLoader` (src/MotionBatchLoader.py): the motion queue
  operations (`remove_motion_file`, `move_motion_up`, `move_motion_down`)
  and the Sequencer `load_motions_to_timeline`, which lays queued motion
  sources end-to-end on the timeline and records a ledger of clip infos.
  (`MotionLibraryBrowser.load_to_timeline` in src/MotionLibraryBrowser.py
  runs the identical placement loop, so one embedding covers both.)
* `nla_clip_splitter` (src/nla_clip_splitter.py): the three split paths
  (import-with-metadata, split-from-JSON-metadata, split-by-markers),
  the per-keyframe copy logic, the marker-derived segmentation and the
  NLA track assembly with its muting convention.

Numbers: Python floats are modelled as exact rationals (ℚ) and Python
ints as ℤ; `int(x)` is truncation toward zero (`pyInt`).  Host-API calls
(RLPy, bpy) are modelled by their observable outcomes: the motion-load
oracle becomes an `Option ℚ` length attached to each source, Blender's
`keyframe_points.insert` becomes `insertedKeyframe`, and UI glue
(dialogs, drag and drop, status labels) is out of scope, as in the spec.
-/
import Mathlib

/-- Python `int(x)` applied to a real-valued (here: rational) quantity:
truncation toward zero. -/
def pyInt (q : ℚ) : ℤ := if 0 ≤ q then ⌊q⌋ else ⌈q⌉

theorem pyInt_eq_floor {q : ℚ} (h : 0 ≤ q) : pyInt q = ⌊q⌋ := by
  simp [pyInt, h]

/-! ## Motion queue operations (src/MotionBatchLoader.py lines 65-85)

Python list indexing admits negative indices (counted from the end) and
raises `IndexError` when the normalized index is out of range.  `pyNorm`
performs that normalization; a raised `IndexError` is modelled as `none`.
In a Python tuple assignment `a[i], a[j] = a[j], a[i]` the right-hand
side is read first, so a failing read mutates nothing. -/

/-- Normalize a Python list index: negative indices count from the end;
out-of-range indices (after normalization) are an `IndexError`, `none`. -/
def pyNorm (len : ℕ) (i : ℤ) : Option ℕ :=
  if 0 ≤ i then (if i < (len : ℤ) then some i.toNat else none)
  else (if 0 ≤ i + (len : ℤ) then some (i + (len : ℤ)).toNat else none)

/-- Python `l[i]` (read). -/
def pyGet {α : Type} (l : List α) (i : ℤ) : Option α :=
  (pyNorm l.length i).bind (fun n => l[n]?)

/-- Python `l[i] = v` (write). -/
def pySet {α : Type} (l : List α) (i : ℤ) (v : α) : Option (List α) :=
  (pyNorm l.length i).map (fun n => l.set n v)

/-- `MotionBatchLoader.remove_motion_file`:
`if 0 <= index < len(self.motion_files): del self.motion_files[index]`. -/
def remove_motion_file {α : Type} (l : List α) (index : ℤ) : List α :=
  if 0 ≤ index ∧ index < (l.length : ℤ) then l.eraseIdx index.toNat else l

/-- `MotionBatchLoader.move_motion_up`: guarded by `index > 0`, then the
tuple assignment `a[index], a[index-1] = a[index-1], a[index]`.  The two
reads happen first (left to right); then `a[index]` is written, then
`a[index-1]`.  `none` models a raised `IndexError`. -/
def move_motion_up {α : Type} (l : List α) (index : ℤ) : Option (List α) :=
  if 0 < index then
    match pyGet l (index - 1), pyGet l index with
    | some a, some b =>
      match pySet l index a with
      | some l1 => pySet l1 (index - 1) b
      | none => none
    | _, _ => none
  else some l

/-- `MotionBatchLoader.move_motion_down`: guarded by
`index < len(self.motion_files) - 1`, then
`a[index], a[index+1] = a[index+1], a[index]`. -/
def move_motion_down {α : Type} (l : List α) (index : ℤ) : Option (List α) :=
  if index < (l.length : ℤ) - 1 then
    match pyGet l (index + 1), pyGet l index with
    | some a, some b =>
      match pySet l index a with
      | some l1 => pySet l1 (index + 1) b
      | none => none
    | _, _ => none
  else some l

/-! ## Sequencer (src/MotionBatchLoader.py lines 87-146)

A queued source is its path, its display name (the code derives it by
`os.path.splitext(os.path.basename(path))[0]`; here it is carried as
data since no claim inspects its content), and the outcome of the host's
`RLPy.RFileIO.LoadMotion` length oracle: `some length_ms` when the load
succeeds and a clip with that length is appended to the skeleton,
`none` when the load fails (the code prints and skips; it also skips,
without advancing the cursor, when no clip appears — the same observable
outcome). -/

structure Source where
  path : String
  name : String
  length? : Option ℚ
deriving DecidableEq

/-- One entry of `loaded_clips_info` (the Segment of the spec). -/
structure ClipInfo where
  index : ℕ
  name : String
  source_file : String
  start_time_ms : ℤ
  length_ms : ℚ
  start_frame : ℤ
  end_frame : ℤ
  length_frames : ℤ
deriving DecidableEq

/-- `gap_ms = int((gap_frames / fps) * 1000) if gap_frames > 0 else 0`. -/
def gap_ms (fps : ℚ) (gapFrames : ℤ) : ℤ :=
  if 0 < gapFrames then pyInt ((gapFrames : ℚ) / fps * 1000) else 0

/-- The body of the `for i, motion_path in enumerate(self.motion_files)`
loop of `load_motions_to_timeline`, over the enumerated source list and
the running cursor `current_time_ms`. -/
def loadMotionsLoop (fps : ℚ) (g : ℤ) :
    List (ℕ × Source) → ℤ → List ClipInfo
  | [], _ => []
  | (i, s) :: rest, cur =>
    match s.length? with
    | none => loadMotionsLoop fps g rest cur
    | some len =>
      let lenFrames := pyInt (len / 1000 * fps)
      let startFrame := pyInt ((cur : ℚ) / 1000 * fps)
      { index := i, name := s.name, source_file := s.path,
        start_time_ms := cur, length_ms := len,
        start_frame := startFrame, end_frame := startFrame + lenFrames,
        length_frames := lenFrames }
        :: loadMotionsLoop fps g rest (cur + pyInt len + g)

/-- `MotionBatchLoader.load_motions_to_timeline`: the ledger of placed
clips.  The avatar lookup and the empty-queue early return are host/UI
glue returning an error string and an empty ledger; the ledger itself is
produced by this loop starting from `current_time_ms = 0`. -/
def load_motions_to_timeline (fps : ℚ) (gapFrames : ℤ)
    (sources : List Source) : List ClipInfo :=
  loadMotionsLoop fps (gap_ms fps gapFrames) sources.enum 0

/-! ### Structural lemmas about the placement loop -/

theorem loadLoop_start_head (fps : ℚ) (g : ℤ) (l : List (ℕ × Source)) :
    ∀ (cur : ℤ) (a : ClipInfo),
      (loadMotionsLoop fps g l cur)[0]? = some a → a.start_time_ms = cur := by
  induction l with
  | nil => intro cur a h; simp [loadMotionsLoop] at h
  | cons p rest ih =>
    intro cur a h
    obtain ⟨n, s⟩ := p
    cases hs : s.length? with
    | none =>
      simp only [loadMotionsLoop, hs] at h
      exact ih cur a h
    | some len =>
      simp only [loadMotionsLoop, hs, List.getElem?_cons_zero,
        Option.some.injEq] at h
      rw [← h]

theorem loadLoop_chain (fps : ℚ) (g : ℤ) (l : List (ℕ × Source)) :
    ∀ (cur : ℤ) (i : ℕ) (a b : ClipInfo),
      (loadMotionsLoop fps g l cur)[i]? = some a →
      (loadMotionsLoop fps g l cur)[i + 1]? = some b →
      b.start_time_ms = a.start_time_ms + pyInt a.length_ms + g := by
  induction l with
  | nil => intro cur i a b ha _; simp [loadMotionsLoop] at ha
  | cons p rest ih =>
    intro cur i a b ha hb
    obtain ⟨n, s⟩ := p
    cases hs : s.length? with
    | none =>
      simp only [loadMotionsLoop, hs] at ha hb
      exact ih cur i a b ha hb
    | some len =>
      simp only [loadMotionsLoop, hs] at ha hb
      cases i with
      | zero =>
        rw [List.getElem?_cons_zero, Option.some.injEq] at ha
        rw [List.getElem?_cons_succ] at hb
        have hstart := loadLoop_start_head fps g rest (cur + pyInt len + g) b hb
        rw [hstart, ← ha]
      | succ j =>
        rw [List.getElem?_cons_succ] at ha hb
        exact ih _ j a b ha hb

theorem loadLoop_frames (fps : ℚ) (g : ℤ) (l : List (ℕ × Source)) :
    ∀ (cur : ℤ) (c : ClipInfo), c ∈ loadMotionsLoop fps g l cur →
      c.end_frame = c.start_frame + c.length_frames ∧
      c.length_frames = pyInt (c.length_ms / 1000 * fps) ∧
      ∃ p ∈ l, p.2.length? = some c.length_ms := by
  induction l with
  | nil => intro cur c hc; simp [loadMotionsLoop] at hc
  | cons p rest ih =>
    intro cur c hc
    obtain ⟨n, s⟩ := p
    cases hs : s.length? with
    | none =>
      simp only [loadMotionsLoop, hs] at hc
      obtain ⟨h1, h2, q, hq, hq2⟩ := ih cur c hc
      exact ⟨h1, h2, q, List.mem_cons_of_mem _ hq, hq2⟩
    | some len =>
      simp only [loadMotionsLoop, hs, List.mem_cons] at hc
      rcases hc with rfl | hc
      · exact ⟨rfl, rfl, (n, s), List.mem_cons_self _ _, hs⟩
      · obtain ⟨h1, h2, q, hq, hq2⟩ := ih _ c hc
        exact ⟨h1, h2, q, List.mem_cons_of_mem _ hq, hq2⟩

theorem loadLoop_map_index (fps : ℚ) (g : ℤ) (l : List (ℕ × Source)) :
    ∀ cur : ℤ,
      (loadMotionsLoop fps g l cur).map ClipInfo.index
        = (l.filter (fun p => p.2.length?.isSome)).map Prod.fst := by
  induction l with
  | nil => intro cur; simp [loadMotionsLoop]
  | cons p rest ih =>
    intro cur
    obtain ⟨n, s⟩ := p
    cases hs : s.length? with
    | none => simp [loadMotionsLoop, hs, List.filter_cons, ih cur]
    | some len => simp [loadMotionsLoop, hs, List.filter_cons, ih]

/-! ### Concrete sources used by witnesses and counterexamples -/

def srcA : Source := ⟨"A.fbx", "A", none⟩

def srcB : Source := ⟨"B.fbx", "B", some 1000⟩

def srcC : Source := ⟨"C.fbx", "C", some 500⟩

/-- A source whose oracle length, 1000.5 ms, is not an integer. -/
def srcHalf : Source := ⟨"H.fbx", "H", some (2001 / 2)⟩

/-- The first clip placed from `[srcHalf, srcC]` at fps 30 and gap 0. -/
def clipHalf0 : ClipInfo := ⟨0, "H", "H.fbx", 0, 2001 / 2, 0, 30, 30⟩

/-- The second clip placed from `[srcHalf, srcC]` at fps 30 and gap 0. -/
def clipHalf1 : ClipInfo := ⟨1, "C", "C.fbx", 1000, 500, 30, 45, 15⟩

theorem load_srcHalf_eval :
    load_motions_to_timeline 30 0 [srcHalf, srcC] = [clipHalf0, clipHalf1] := by
  simp only [load_motions_to_timeline, loadMotionsLoop, gap_ms, pyInt,
    srcHalf, srcC, clipHalf0, clipHalf1, List.enum]
  norm_num [ClipInfo.mk.injEq, List.enumFrom]

/-! ### Claim C1 -/

/-- C1 counterexample: with the queue `[A(fail), B(1000ms)]` the single
emitted segment has `index = 1` (its original queue position), so the
emitted indices are not the dense sequence `0..k-1` over successfully
placed sources that the claim asserts. -/
theorem C1_counterexample :
    (load_motions_to_timeline 30 0 [srcA, srcB]).map ClipInfo.index
      ≠ List.range (load_motions_to_timeline 30 0 [srcA, srcB]).length := by
  have h : (load_motions_to_timeline 30 0 [srcA, srcB]).map ClipInfo.index
      = [1] := by
    simp [load_motions_to_timeline, loadMotionsLoop, gap_ms, pyInt,
      srcA, srcB, List.enum]
  intro hcontra
  rw [h] at hcontra
  have hlen : (load_motions_to_timeline 30 0 [srcA, srcB]).length = 1 := by
    have := congrArg List.length h
    simpa using this
  rw [hlen] at hcontra
  simp [List.range_succ] at hcontra

/-- C1 amended: the `index` field of each emitted Segment is its source's
position in the *original* queue (the `enumerate` counter), not its
position among successfully placed sources; the emitted indices are the
queue positions of exactly the successful sources, in order.  They form
the dense sequence `0..k-1` only when no earlier source failed. -/
theorem C1_amended (fps : ℚ) (gapFrames : ℤ) (sources : List Source) :
    (load_motions_to_timeline fps gapFrames sources).map ClipInfo.index
      = (sources.enum.filter (fun p => p.2.length?.isSome)).map Prod.fst :=
  loadLoop_map_index fps (gap_ms fps gapFrames) sources.enum 0

/-! ### Claim C3 -/

/-- C3 counterexample: placing `[H(1000.5ms), C(500ms)]` at fps 30 with
gap 0, the second segment starts at 1000 ms (the cursor advances by
`int(clip_length_ms)`), not at `0 + 1000.5 + gap_ms` = 1000.5 ms as the
claimed exact contiguity equation requires. -/
theorem C3_counterexample :
    ((load_motions_to_timeline 30 0 [srcHalf, srcC]).map
        (fun c => ((c.start_time_ms : ℚ), c.length_ms)))
      = [(0, 2001 / 2), (1000, 500)] ∧
    (1000 : ℚ) ≠ 0 + 2001 / 2 + ((gap_ms 30 0 : ℤ) : ℚ) := by
  constructor
  · rw [load_srcHalf_eval]
    simp [clipHalf0, clipHalf1]
  · simp only [gap_ms]
    norm_num

/-- C3 amended: adjacent segments of a ledger produced by
`load_motions_to_timeline` with gap parameter G satisfy
`segment[i+1].start_ms = segment[i].start_ms + int(segment[i].length_ms)
+ gap_ms(G)`, the length truncated toward zero by Python `int()`; the
claimed equation with the exact `length_ms` holds exactly when
`length_ms` is an integer. -/
theorem C3_amended (fps : ℚ) (gapFrames : ℤ) (sources : List Source)
    (i : ℕ) (a b : ClipInfo)
    (ha : (load_motions_to_timeline fps gapFrames sources)[i]? = some a)
    (hb : (load_motions_to_timeline fps gapFrames sources)[i + 1]? = some b) :
    b.start_time_ms = a.start_time_ms + pyInt a.length_ms
      + gap_ms fps gapFrames :=
  loadLoop_chain fps (gap_ms fps gapFrames) sources.enum 0 i a b ha hb

theorem C3_amended_witness :
    clipHalf1.start_time_ms
      = clipHalf0.start_time_ms + pyInt clipHalf0.length_ms + gap_ms 30 0 :=
  C3_amended 30 0 [srcHalf, srcC] 0 clipHalf0 clipHalf1
    (by rw [load_srcHalf_eval]; rfl) (by rw [load_srcHalf_eval]; rfl)

/-! ### Helper lemmas for the queue operations -/

theorem pyNorm_coe_lt {len n : ℕ} (h : n < len) : pyNorm len (n : ℤ) = some n := by
  unfold pyNorm
  rw [if_pos (Int.natCast_nonneg n), if_pos (by exact_mod_cast h)]
  simp

theorem pyGet_coe {α : Type} (l : List α) (n : ℕ) (h : n < l.length) :
    pyGet l (n : ℤ) = l[n]? := by
  simp [pyGet, pyNorm_coe_lt h]

theorem pySet_coe {α : Type} (l : List α) (n : ℕ) (v : α) (h : n < l.length) :
    pySet l (n : ℤ) v = some (l.set n v) := by
  simp [pySet, pyNorm_coe_lt h]

/-! ### Claim C6 -/

/-- C6: with sources `[A(fail), B(1000ms), C(500ms)]` at fps 30 and gap
0, the failing source A is skipped without aborting the batch and the
ledger holds exactly B at frames 0-30 followed by C at frames 30-45. -/
theorem C6_partial_failure :
    (load_motions_to_timeline 30 0 [srcA, srcB, srcC]).map
        (fun c => (c.source_file, c.start_frame, c.end_frame))
      = [("B.fbx", 0, 30), ("C.fbx", 30, 45)] := by
  simp [load_motions_to_timeline, loadMotionsLoop, gap_ms, pyInt,
    srcA, srcB, srcC, List.enum]
  norm_num

/-! ### Claim C8 -/

/-- C8: every emitted Segment satisfies `end_frame - start_frame =
length_frames` and `length_frames = floor(length_ms / 1000 * fps)`; the
frame fields come from the single truncating conversion (which is a
floor, the lengths being non-negative), with no independent rounding
path. -/
theorem C8_frame_derivation (fps : ℚ) (gapFrames : ℤ) (sources : List Source)
    (hfps : 0 ≤ fps)
    (hlen : ∀ s ∈ sources, ∀ l, s.length? = some l → 0 ≤ l)
    (c : ClipInfo) (hc : c ∈ load_motions_to_timeline fps gapFrames sources) :
    c.end_frame - c.start_frame = c.length_frames ∧
    c.length_frames = ⌊c.length_ms / 1000 * fps⌋ := by
  obtain ⟨h1, h2, p, hp, hp2⟩ :=
    loadLoop_frames fps (gap_ms fps gapFrames) sources.enum 0 c hc
  have hsrc : p.2 ∈ sources := by
    have : p.2 ∈ sources.enum.map Prod.snd := List.mem_map_of_mem Prod.snd hp
    rwa [List.enum_map_snd] at this
  have hnn : 0 ≤ c.length_ms := hlen p.2 hsrc c.length_ms hp2
  refine ⟨by rw [h1]; ring, ?_⟩
  rw [h2, pyInt_eq_floor]
  have h1000 : (0 : ℚ) ≤ c.length_ms / 1000 := by positivity
  exact mul_nonneg h1000 hfps

theorem C8_frame_derivation_witness :
    clipHalf1.end_frame - clipHalf1.start_frame = clipHalf1.length_frames ∧
    clipHalf1.length_frames = ⌊clipHalf1.length_ms / 1000 * 30⌋ := by
  have hmem : clipHalf1 ∈ load_motions_to_timeline 30 0 [srcHalf, srcC] := by
    rw [load_srcHalf_eval]; simp
  refine C8_frame_derivation 30 0 [srcHalf, srcC] (by norm_num) ?_ clipHalf1 hmem
  intro s hs l hl
  rcases List.mem_cons.mp hs with rfl | hs
  · simp only [srcHalf, Option.some.injEq] at hl
    rw [← hl]; norm_num
  · rw [List.mem_singleton] at hs
    subst hs
    simp only [srcC, Option.some.injEq] at hl
    rw [← hl]; norm_num

/-! ### Claim C10 -/

/-- C10 counterexample: the queue operations are not total no-ops on
out-of-range arguments.  `move_motion_down(-1)` on a two-element queue
hits Python negative indexing (`a[-1], a[0] = a[0], a[-1]`) and swaps
the last and first elements, changing the queue; and `move_motion_up(1)`
on a one-element queue raises `IndexError` (modelled as `none`). -/
theorem C10_counterexample :
    move_motion_down ([10, 20] : List ℕ) (-1) = some [20, 10] ∧
    move_motion_up ([10] : List ℕ) 1 = none := by
  constructor <;> decide

/-- C10 amended: `remove_motion_file` is total, a no-op for every index
outside `[0, length)`, and in range removes exactly the indexed element.
`move_motion_up` is a no-op for `index ≤ 0`, raises `IndexError` for
`index ≥ length`, and in range swaps the indexed element with its
predecessor.  `move_motion_down` is a no-op for `index ≥ length - 1` and
for `0 ≤ index < length - 1` swaps the indexed element with its
successor; for negative indices down to `-length` it instead operates
through Python negative indexing (in particular `-1` swaps the last and
first elements), and below `-length` it raises `IndexError`. -/
theorem C10_amended {α : Type} :
    (∀ (l : List α) (i : ℤ), ¬(0 ≤ i ∧ i < (l.length : ℤ)) →
        remove_motion_file l i = l) ∧
    (∀ (l : List α) (n : ℕ), n < l.length →
        remove_motion_file l (n : ℤ) = l.take n ++ l.drop (n + 1)) ∧
    (∀ (l : List α) (i : ℤ), i ≤ 0 → move_motion_up l i = some l) ∧
    (∀ (l : List α) (i : ℤ), 0 < i → (l.length : ℤ) ≤ i →
        move_motion_up l i = none) ∧
    (∀ (l : List α) (n : ℕ), 0 < n → n < l.length →
        ∀ l', move_motion_up l (n : ℤ) = some l' →
          ∀ j : ℕ, l'[j]? = if j = n - 1 then l[n]?
            else if j = n then l[n - 1]? else l[j]?) ∧
    (∀ (l : List α) (i : ℤ), (l.length : ℤ) - 1 ≤ i →
        move_motion_down l i = some l) ∧
    (∀ (l : List α) (n : ℕ), n + 1 < l.length →
        ∀ l', move_motion_down l (n : ℤ) = some l' →
          ∀ j : ℕ, l'[j]? = if j = n then l[n + 1]?
            else if j = n + 1 then l[n]? else l[j]?) := by
  refine ⟨?_, ?_, ?_, ?_, ?_, ?_, ?_⟩
  · intro l i h
    rw [remove_motion_file, if_neg h]
  · intro l n h
    rw [remove_motion_file,
      if_pos ⟨Int.natCast_nonneg n, by exact_mod_cast h⟩]
    rw [Int.toNat_natCast, List.eraseIdx_eq_take_drop_succ]
  · intro l i h
    rw [move_motion_up, if_neg (by omega)]
  · intro l i h0 hlen
    rw [move_motion_up, if_pos h0]
    have hget : pyGet l i = none := by
      rw [pyGet, pyNorm, if_pos (le_of_lt h0), if_neg (by omega)]
      rfl
    rw [hget]
    cases pyGet l (i - 1) <;> rfl
  · intro l n h0 hlen l' hl' j
    have hm1 : ((n : ℤ) - 1) = ((n - 1 : ℕ) : ℤ) := by omega
    have hlt1 : n - 1 < l.length := by omega
    rw [move_motion_up, if_pos (by exact_mod_cast h0), hm1,
      pyGet_coe l (n - 1) hlt1, pyGet_coe l n hlen,
      List.getElem?_eq_getElem hlt1, List.getElem?_eq_getElem hlen] at hl'
    simp only at hl'
    rw [pySet_coe l n _ hlen] at hl'
    simp only at hl'
    rw [pySet_coe _ (n - 1) _ (by simpa using hlt1),
      Option.some.injEq] at hl'
    subst hl'
    by_cases hj1 : j = n - 1
    · subst hj1
      rw [if_pos rfl, List.getElem?_set_eq_of_lt _ (by simpa using hlt1),
        List.getElem?_eq_getElem hlen]
    · by_cases hj2 : j = n
      · subst hj2
        rw [if_neg hj1, if_pos rfl, List.getElem?_set_ne (by omega),
          List.getElem?_set_eq_of_lt _ hlen, List.getElem?_eq_getElem hlt1]
      · rw [if_neg hj1, if_neg hj2, List.getElem?_set_ne (by omega),
          List.getElem?_set_ne (by omega)]
  · intro l i h
    rw [move_motion_down, if_neg (by omega)]
  · intro l n hlen l' hl' j
    have hn : n < l.length := by omega
    rw [move_motion_down, if_pos (by omega : (n : ℤ) < (l.length : ℤ) - 1),
      show ((n : ℤ) + 1) = ((n + 1 : ℕ) : ℤ) by omega,
      pyGet_coe l (n + 1) hlen, pyGet_coe l n hn,
      List.getElem?_eq_getElem hlen, List.getElem?_eq_getElem hn] at hl'
    simp only at hl'
    rw [pySet_coe l n _ hn] at hl'
    simp only at hl'
    rw [pySet_coe _ (n + 1) _ (by simpa using hlen), Option.some.injEq] at hl'
    subst hl'
    by_cases hj1 : j = n + 1
    · subst hj1
      rw [if_neg (by omega), if_pos rfl,
        List.getElem?_set_eq_of_lt _ (by simpa using hlen),
        List.getElem?_eq_getElem hn]
    · by_cases hj2 : j = n
      · subst hj2
        rw [if_pos rfl, List.getElem?_set_ne (by omega),
          List.getElem?_set_eq_of_lt _ hn, List.getElem?_eq_getElem hlen]
      · rw [if_neg hj2, if_neg hj1, List.getElem?_set_ne (by omega),
          List.getElem?_set_ne (by omega)]

theorem C10_amended_witness :
    remove_motion_file ([1, 2, 3] : List ℕ) 5 = [1, 2, 3] ∧
    move_motion_up ([1, 2, 3] : List ℕ) 0 = some [1, 2, 3] ∧
    move_motion_down ([1, 2, 3] : List ℕ) 7 = some [1, 2, 3] :=
  ⟨(C10_amended (α := ℕ)).1 [1, 2, 3] 5 (by decide),
   (C10_amended (α := ℕ)).2.2.1 [1, 2, 3] 0 le_rfl,
   (C10_amended (α := ℕ)).2.2.2.2.2.1 [1, 2, 3] 7 (by decide)⟩

/-! ## Splitter data model (src/nla_clip_splitter.py)

Blender animation data as read and written by the three split
operators.  Times and values are rationals (Blender floats); enum-typed
keyframe attributes (interpolation, easing, handle types) are carried as
strings. -/

structure Handle where
  x : ℚ
  y : ℚ
deriving DecidableEq

structure Keyframe where
  time : ℚ
  value : ℚ
  interpolation : String
  easing : String
  handle_left_type : String
  handle_right_type : String
  handle_left : Handle
  handle_right : Handle
deriving DecidableEq

/-- A keyframe as created by Blender's
`fcurve.keyframe_points.insert(frame=new_frame, value=..., options={'FAST'})`:
it sits at `(frame, value)` and every other attribute holds Blender's
default for a freshly inserted key — BEZIER interpolation, automatic
easing, and auto handles placed relative to the key itself (for an
isolated key they rest at the key's own value).  The defaults depend
only on `(frame, value)`, never on any other keyframe. -/
def insertedKeyframe (frame value : ℚ) : Keyframe :=
  { time := frame, value := value, interpolation := "BEZIER",
    easing := "AUTO", handle_left_type := "AUTO_CLAMPED",
    handle_right_type := "AUTO_CLAMPED",
    handle_left := ⟨frame, value⟩, handle_right := ⟨frame, value⟩ }

/-- The keyframe copy performed by `NLA_OT_ImportWithMetadata.execute`
(lines 178-208): insert at `new_frame = frame - start_frame` when
`offset_to_zero` else `frame`, with the source's value; then overwrite
interpolation, easing, both handle types, and both handles — the handle
times shifted by `-start_frame` when offsetting, the handle values
untouched. -/
def copyKeyframeFull (off : Bool) (startF : ℚ) (kf : Keyframe) : Keyframe :=
  let newFrame := if off then kf.time - startF else kf.time
  { insertedKeyframe newFrame kf.value with
    interpolation := kf.interpolation,
    easing := kf.easing,
    handle_left_type := kf.handle_left_type,
    handle_right_type := kf.handle_right_type,
    handle_left :=
      if off then ⟨kf.handle_left.x - startF, kf.handle_left.y⟩
      else kf.handle_left,
    handle_right :=
      if off then ⟨kf.handle_right.x - startF, kf.handle_right.y⟩
      else kf.handle_right }

/-- The keyframe copy performed by `NLA_OT_SplitActiveAction.execute`
(lines 337-346) and by `NLA_OT_SplitByMarkers.execute` (lines 421-430
and 467-476, the same loop twice): insert at the possibly offset frame
with the source's value, then overwrite only `interpolation`.  Easing,
handle types and handles stay at the insert defaults. -/
def copyKeyframeBasic (off : Bool) (startF : ℚ) (kf : Keyframe) : Keyframe :=
  let newFrame := if off then kf.time - startF else kf.time
  { insertedKeyframe newFrame kf.value with interpolation := kf.interpolation }

/-- The keyframe filter shared by all three split paths:
`if start_frame <= frame <= end_frame`. -/
def inSegment (s e : ℚ) (kf : Keyframe) : Bool :=
  decide (s ≤ kf.time) && decide (kf.time ≤ e)

structure FCurve where
  data_path : String
  array_index : ℕ
  group : String
  keyframe_points : List Keyframe
deriving DecidableEq

/-- One fcurve of the per-clip action built by the import-with-metadata
path: same data path, array index and group, keyframes filtered to the
segment (both bounds inclusive) and copied with `copyKeyframeFull`. -/
def splitFCurveFull (off : Bool) (s e : ℚ) (fc : FCurve) : FCurve :=
  { data_path := fc.data_path, array_index := fc.array_index,
    group := fc.group,
    keyframe_points :=
      (fc.keyframe_points.filter (inSegment s e)).map (copyKeyframeFull off s) }

/-- One fcurve of the per-clip action built by the JSON-metadata and
marker split paths: as `splitFCurveFull` but with `copyKeyframeBasic`. -/
def splitFCurveBasic (off : Bool) (s e : ℚ) (fc : FCurve) : FCurve :=
  { data_path := fc.data_path, array_index := fc.array_index,
    group := fc.group,
    keyframe_points :=
      (fc.keyframe_points.filter (inSegment s e)).map (copyKeyframeBasic off s) }

structure BAction where
  name : String
  fcurves : List FCurve
deriving DecidableEq

/-- The per-clip action of the import-with-metadata path. -/
def splitClipFull (off : Bool) (s e : ℚ) (orig : BAction)
    (name : String) : BAction :=
  { name := name, fcurves := orig.fcurves.map (splitFCurveFull off s e) }

/-- The per-clip action of the JSON-metadata and marker paths. -/
def splitClipBasic (off : Bool) (s e : ℚ) (orig : BAction)
    (name : String) : BAction :=
  { name := name, fcurves := orig.fcurves.map (splitFCurveBasic off s e) }

/-! ## Clip metadata and NLA track assembly -/

/-- One entry of the JSON sidecar's `clips` list as consumed with
`clip.get(..., default)`: absent fields fall back to the code's
defaults at each use site. -/
structure ClipMeta where
  index? : Option ℕ
  name? : Option String
  start_frame? : Option ℚ
  end_frame? : Option ℚ
deriving DecidableEq

/-- `clip.get('name', f"Clip_{clip.get('index', 0)}")`. -/
def clipDisplayName (c : ClipMeta) : String :=
  c.name?.getD ("Clip_" ++ toString (c.index?.getD 0))

structure Track where
  name : String
  mute : Bool
  strip_start : ℤ
  action : BAction
deriving DecidableEq

/-- `armature.animation_data.nla_tracks[0].mute = False` at the end of
each split path: the head of the armature's **full** NLA track list is
unmuted, whatever that list holds — it is not necessarily a track the
current run created. -/
def unmuteFirst : List Track → List Track
  | [] => []
  | t :: ts => { t with mute := false } :: ts

/-- NLA track creation of `NLA_OT_ImportWithMetadata.execute` (lines
224-248): `nla_tracks.new()` appends one track per created action to the
armature's existing track list (`prior` — empty for a freshly imported
armature, but the armature fallback of lines 126-134 can select a
pre-existing armature whose list is not), each muted on creation
(`track.mute = True`), strip start 0 when offsetting else the clip's
start frame (`strips.new` truncates it with `int()`); then the head of
the full list is unmuted. -/
def assembleTracks (off : Bool) (prior : List Track)
    (created : List (BAction × ClipMeta)) : List Track :=
  unmuteFirst (prior ++ created.map (fun p =>
    { name := p.1.name, mute := true,
      strip_start := if off then 0 else pyInt (p.2.start_frame?.getD 0),
      action := p.1 }))

/-- The per-clip actions of `NLA_OT_SplitActiveAction.execute`. -/
def splitFromMetadataActions (off : Bool) (clips : List ClipMeta)
    (orig : BAction) : List (ClipMeta × BAction) :=
  clips.map (fun c =>
    (c, splitClipBasic off (c.start_frame?.getD 0) (c.end_frame?.getD 0)
      orig (clipDisplayName c)))

/-- NLA track creation of `NLA_OT_SplitActiveAction.execute` (lines
350-362): a muted track per clip is appended to the armature's existing
NLA track list (`prior` — the operator's poll only requires an armature
with an active action, so that list may be non-empty); then
`nla_tracks[0].mute = False` unmutes the head of the full list. -/
def splitFromMetadataTracks (off : Bool) (prior : List Track)
    (clips : List ClipMeta) (orig : BAction) : List Track :=
  unmuteFirst (prior ++ (splitFromMetadataActions off clips orig).map (fun p =>
    { name := clipDisplayName p.1, mute := true,
      strip_start := if off then 0 else pyInt (p.1.start_frame?.getD 0),
      action := p.2 }))

/-! ## Marker-based segmentation (`NLA_OT_SplitByMarkers.execute`) -/

structure Marker where
  name : String
  frame : ℤ
deriving DecidableEq

/-- Insertion step of a stable ascending sort by `frame`: an element is
placed after every element whose frame is ≤ its own. -/
def insertMarker (m : Marker) : List Marker → List Marker
  | [] => [m]
  | x :: xs => if m.frame < x.frame then m :: x :: xs else x :: insertMarker m xs

/-- `sorted(context.scene.timeline_markers, key=lambda m: m.frame)`
(Python's sort is stable). -/
def sortMarkers (ms : List Marker) : List Marker :=
  ms.foldl (fun acc m => insertMarker m acc) []

/-- A segment boundary record `{name, start_frame, end_frame}` as used
by the split loops. -/
structure SegSpec where
  name : String
  start_frame : ℚ
  end_frame : ℚ
deriving DecidableEq

/-- The `for i in range(len(markers) - 1)` loop (lines 402-408): segment
i runs from `markers[i].frame` to `markers[i+1].frame - 1`, named after
`markers[i]` with the positional fallback `Clip_{i}`. -/
def pairSegments : ℕ → List Marker → List SegSpec
  | _, [] => []
  | _, [_] => []
  | i, a :: b :: rest =>
    { name := if a.name = "" then "Clip_" ++ toString i else a.name,
      start_frame := (a.frame : ℚ), end_frame := (b.frame : ℚ) - 1 }
      :: pairSegments (i + 1) (b :: rest)

/-- `max_frame`: initialized to 0, then the maximum of `kf.co.x` over
every keyframe of every fcurve (lines 448-451). -/
def maxKeyframeTime (act : BAction) : ℚ :=
  act.fcurves.foldl (fun acc fc =>
    fc.keyframe_points.foldl (fun m kf => max m kf.time) acc) 0

/-- Name of the trailing segment:
`last_marker.name if last_marker.name else f"Clip_{len(markers)-1}"`. -/
def trailingName (count : ℕ) (last : Marker) : String :=
  if last.name = "" then "Clip_" ++ toString (count - 1) else last.name

/-- The segment list the marker path derives: the adjacent-marker
segments, plus a trailing segment from the last marker to `max_frame`
exactly when `max_frame > last_marker.frame` (lines 444-456). -/
def markerSegments (markers : List Marker) (orig : BAction) : List SegSpec :=
  let ms := sortMarkers markers
  let pairs := pairSegments 0 ms
  match ms.getLast? with
  | none => pairs
  | some last =>
    if (last.frame : ℚ) < maxKeyframeTime orig then
      pairs ++ [{ name := trailingName ms.length last,
                  start_frame := (last.frame : ℚ),
                  end_frame := maxKeyframeTime orig }]
    else pairs

/-- `NLA_OT_SplitByMarkers.execute`: `none` models the CANCELLED return
when fewer than 2 markers exist; otherwise each derived segment yields a
`splitClipBasic` action and a muted track appended to the armature's
existing track list (`prior`), and the head of the full list is
unmuted. -/
def split_by_markers (off : Bool) (prior : List Track)
    (markers : List Marker) (orig : BAction) :
    Option (List (SegSpec × BAction) × List Track) :=
  if markers.length < 2 then none
  else
    let segs := markerSegments markers orig
    let created := segs.map (fun sg =>
      (sg, splitClipBasic off sg.start_frame sg.end_frame orig sg.name))
    some (created, unmuteFirst (prior ++ created.map (fun p =>
      { name := p.1.name, mute := true,
        strip_start := if off then 0 else pyInt p.1.start_frame,
        action := p.2 })))

/-! ## Import-with-metadata control flow (`NLA_OT_ImportWithMetadata`) -/

inductive OpStatus
  | finished
  | cancelled
deriving DecidableEq

/-- The JSON sidecar as consumed by the operator. -/
structure Metadata where
  fps? : Option ℚ
  avatar_name? : Option String
  clips : List ClipMeta
deriving DecidableEq

/-- The host state the operator observes: whether the sidecar file
exists next to the FBX, whether it parses, whether an armature with an
animated action is found after the FBX import (a freshly imported
armature has no NLA tracks, but the fallback of lines 126-134 can
select a pre-existing armature, so `priorTracks` carries that
armature's NLA track list), and the operator's options. -/
structure ImportEnv where
  sidecarExists : Bool
  parsedMetadata? : Option Metadata
  armatureFound : Bool
  hasAnimAction : Bool
  originalAction : BAction
  priorTracks : List Track
  create_nla_tracks : Bool
  offset_to_zero : Bool
deriving DecidableEq

/-- `tracks` is the armature's NLA track list after the operator
performed track assembly, and `[]` on every path that performs none
(those paths leave whatever track list exists untouched). -/
structure ImportOutcome where
  status : OpStatus
  plainFbxImport : Bool
  createdActions : List BAction
  tracks : List Track
deriving DecidableEq

/-- `NLA_OT_ImportWithMetadata.execute` (lines 90-260): missing sidecar
→ warn, plain FBX import, FINISHED; unreadable metadata → CANCELLED
before any import; then FBX import, armature and animation-data checks
(CANCELLED), empty clip list → FINISHED with a warning; otherwise one
`splitClipFull` action per clip and, when requested, the NLA tracks of
`assembleTracks` appended onto the armature's existing list. -/
def importWithMetadataExecute (env : ImportEnv) : ImportOutcome :=
  if env.sidecarExists = false then
    { status := .finished, plainFbxImport := true,
      createdActions := [], tracks := [] }
  else
    match env.parsedMetadata? with
    | none =>
      { status := .cancelled, plainFbxImport := false,
        createdActions := [], tracks := [] }
    | some md =>
      if env.armatureFound = false then
        { status := .cancelled, plainFbxImport := true,
          createdActions := [], tracks := [] }
      else if env.hasAnimAction = false then
        { status := .cancelled, plainFbxImport := true,
          createdActions := [], tracks := [] }
      else if md.clips.isEmpty then
        { status := .finished, plainFbxImport := true,
          createdActions := [], tracks := [] }
      else
        let created := md.clips.map (fun c =>
          (splitClipFull env.offset_to_zero (c.start_frame?.getD 0)
            (c.end_frame?.getD 0) env.originalAction (clipDisplayName c), c))
        { status := .finished, plainFbxImport := true,
          createdActions := created.map Prod.fst,
          tracks :=
            if env.create_nla_tracks && !created.isEmpty then
              assembleTracks env.offset_to_zero env.priorTracks created
            else [] }

/-! ### Claim C2 -/

/-- Concrete keyframe whose tangent handles differ from the insert
defaults. -/
def kfDemo : Keyframe :=
  { time := 5, value := 2, interpolation := "LINEAR", easing := "EASE_IN",
    handle_left_type := "FREE", handle_right_type := "FREE",
    handle_left := ⟨3, 9⟩, handle_right := ⟨7, 9⟩ }

def actDemo : BAction :=
  { name := "Take 001", fcurves := [⟨"location", 0, "", [kfDemo]⟩] }

def clipDemo : ClipMeta := ⟨some 0, some "walk", some 0, some 10⟩

def clipDemo2 : ClipMeta := ⟨some 1, some "run", some 11, some 20⟩

/-- C2 counterexample: in the split-from-JSON-metadata path, the copied
keyframe's left-handle value is the insert default derived from the
key's own value (2), not the source keyframe's handle value (9): the
JSON and marker paths do not carry tangent handles over, so the claim
fails for those two of the three split paths. -/
theorem C2_counterexample :
    ((splitFromMetadataActions true [clipDemo] actDemo).map (fun p =>
        p.2.fcurves.map (fun fc =>
          fc.keyframe_points.map (fun k => k.handle_left.y))))
      = [[[2]]] ∧
    kfDemo.handle_left.y = 9 ∧ (2 : ℚ) ≠ 9 := by
  refine ⟨?_, rfl, by norm_num⟩
  norm_num [splitFromMetadataActions, splitClipBasic, splitFCurveBasic,
    clipDemo, actDemo, clipDisplayName, List.filter_cons, inSegment,
    copyKeyframeBasic, insertedKeyframe, kfDemo]

/-- C2 amended: the import-with-metadata path copies value,
interpolation and both handles, shifting the keyframe time and both
handle times by `-start_frame` under rebase while leaving the handle
value components untouched; the JSON-metadata and marker paths copy
only value and interpolation (time shifted likewise) and ignore the
source keyframe's handles entirely, leaving the inserted keyframe's
handles at Blender's insert defaults. -/
theorem C2_amended (off : Bool) (s : ℚ) (kf : Keyframe) :
    ((copyKeyframeFull off s kf).time
        = (if off then kf.time - s else kf.time) ∧
      (copyKeyframeFull off s kf).value = kf.value ∧
      (copyKeyframeFull off s kf).interpolation = kf.interpolation ∧
      (copyKeyframeFull off s kf).handle_left
        = (if off then ⟨kf.handle_left.x - s, kf.handle_left.y⟩
           else kf.handle_left) ∧
      (copyKeyframeFull off s kf).handle_right
        = (if off then ⟨kf.handle_right.x - s, kf.handle_right.y⟩
           else kf.handle_right)) ∧
    ((copyKeyframeBasic off s kf).time
        = (if off then kf.time - s else kf.time) ∧
      (copyKeyframeBasic off s kf).value = kf.value ∧
      (copyKeyframeBasic off s kf).interpolation = kf.interpolation ∧
      ∀ h1 h2 : Handle,
        copyKeyframeBasic off s
            { kf with handle_left := h1, handle_right := h2 }
          = copyKeyframeBasic off s kf) :=
  ⟨⟨rfl, rfl, rfl, rfl, rfl⟩, ⟨rfl, rfl, rfl, fun _ _ => rfl⟩⟩

/-! ### Claim C4 -/

/-- C4: the keyframe filter of every split path admits a keyframe whose
time equals a segment boundary on both sides: with segments `(0,30)` and
`(30,60)`, a keyframe at time 30 is copied into both resulting
channels, in the full-copy path and in the basic-copy paths alike
(closed-closed boundary policy). -/
theorem C4_boundary_inclusion (off : Bool) (fc : FCurve) (kf : Keyframe)
    (hmem : kf ∈ fc.keyframe_points) (ht : kf.time = 30) :
    (copyKeyframeFull off 0 kf
        ∈ (splitFCurveFull off 0 30 fc).keyframe_points ∧
      copyKeyframeFull off 30 kf
        ∈ (splitFCurveFull off 30 60 fc).keyframe_points) ∧
    (copyKeyframeBasic off 0 kf
        ∈ (splitFCurveBasic off 0 30 fc).keyframe_points ∧
      copyKeyframeBasic off 30 kf
        ∈ (splitFCurveBasic off 30 60 fc).keyframe_points) := by
  have hin1 : inSegment 0 30 kf = true := by
    norm_num [inSegment, ht]
  have hin2 : inSegment 30 60 kf = true := by
    norm_num [inSegment, ht]
  refine ⟨⟨?_, ?_⟩, ⟨?_, ?_⟩⟩ <;>
    exact List.mem_map_of_mem _ (List.mem_filter.mpr ⟨hmem, by assumption⟩)

/-- Concrete boundary keyframe at time 30. -/
def kf30 : Keyframe :=
  { time := 30, value := 1, interpolation := "BEZIER", easing := "AUTO",
    handle_left_type := "AUTO_CLAMPED", handle_right_type := "AUTO_CLAMPED",
    handle_left := ⟨29, 1⟩, handle_right := ⟨31, 1⟩ }

def fc30 : FCurve := ⟨"location", 1, "", [kf30]⟩

theorem C4_boundary_inclusion_witness :
    (copyKeyframeFull false 0 kf30
        ∈ (splitFCurveFull false 0 30 fc30).keyframe_points ∧
      copyKeyframeFull false 30 kf30
        ∈ (splitFCurveFull false 30 60 fc30).keyframe_points) ∧
    (copyKeyframeBasic false 0 kf30
        ∈ (splitFCurveBasic false 0 30 fc30).keyframe_points ∧
      copyKeyframeBasic false 30 kf30
        ∈ (splitFCurveBasic false 30 60 fc30).keyframe_points) :=
  C4_boundary_inclusion false fc30 kf30 (by simp [fc30]) rfl

/-! ### Claim C7 -/

theorem tracksAllMutedMap (ts : List Track)
    (h : ∀ t ∈ ts, t.mute = true) :
    ts.map Track.mute = List.replicate ts.length true := by
  have h2 : ∀ b ∈ ts.map Track.mute, b = true := by
    intro b hb
    obtain ⟨t, ht, rfl⟩ := List.mem_map.mp hb
    exact h t ht
  have h3 := List.eq_replicate_of_mem h2
  rwa [List.length_map] at h3

theorem unmuteFirst_map_mute {β : Type} (f : β → Track)
    (hf : ∀ x, (f x).mute = true) :
    ∀ l : List β, l ≠ [] →
      (unmuteFirst (l.map f)).map Track.mute
        = false :: List.replicate (l.length - 1) true := by
  intro l hl
  cases l with
  | nil => exact absurd rfl hl
  | cons x rest =>
    have h : ∀ t ∈ rest.map f, t.mute = true := by
      intro t ht
      obtain ⟨y, _, rfl⟩ := List.mem_map.mp ht
      exact hf y
    simp [unmuteFirst, tracksAllMutedMap _ h]

theorem unmuteFirst_append_drop {prior rest : List Track}
    (hp : prior ≠ []) :
    (unmuteFirst (prior ++ rest)).drop prior.length = rest := by
  cases prior with
  | nil => exact absurd rfl hp
  | cons p ps =>
    show ({ p with mute := false } :: (ps ++ rest)).drop (ps.length + 1)
      = rest
    rw [List.drop_succ_cons, List.drop_left]

/-- Pre-existing NLA tracks on an armature: a muted one at the head and
an unmuted one behind it. -/
def trackOld0 : Track := ⟨"old0", true, 0, actDemo⟩

def trackOld1 : Track := ⟨"old1", false, 0, actDemo⟩

def priorDemo : List Track := [trackOld0, trackOld1]

/-- C7 counterexample: when the armature already owns NLA tracks —
here a muted `old0` followed by an unmuted `old1` — the split's final
`nla_tracks[0].mute = False` unmutes the pre-existing head, every track
created by the run stays muted, and the pre-existing unmuted track at
position 1 keeps `muted = false`: the resulting mute flags are
`[false, false, true, true]`, so a track other than the first is
unmuted and no created track is unmuted, falsifying the claim. -/
theorem C7_counterexample :
    (splitFromMetadataTracks true priorDemo [clipDemo, clipDemo2]
        actDemo).map Track.mute
      = [false, false, true, true] ∧
    ((splitFromMetadataTracks true priorDemo [clipDemo, clipDemo2]
        actDemo).map Track.mute)[1]? = some false := by
  constructor
  · simp [splitFromMetadataTracks, splitFromMetadataActions, unmuteFirst,
      priorDemo, trackOld0, trackOld1]
  · simp [splitFromMetadataTracks, splitFromMetadataActions, unmuteFirst,
      priorDemo, trackOld0, trackOld1]

/-- C7 amended: each split path creates every new track muted and then
unmutes the head of the armature's full NLA track list.  When that list
was empty before the run (as for a freshly imported armature), exactly
the first track of the non-empty result is unmuted and all others are
muted; when pre-existing tracks are present, the head of the
pre-existing list is unmuted instead and every track created by the run
remains muted. -/
theorem C7_amended (off : Bool) :
    (∀ created : List (BAction × ClipMeta), created ≠ [] →
      (assembleTracks off [] created).map Track.mute
        = false :: List.replicate (created.length - 1) true) ∧
    (∀ (clips : List ClipMeta) (orig : BAction), clips ≠ [] →
      (splitFromMetadataTracks off [] clips orig).map Track.mute
        = false :: List.replicate (clips.length - 1) true) ∧
    (∀ (prior : List Track) (created : List (BAction × ClipMeta)),
      prior ≠ [] →
      ∀ t ∈ (assembleTracks off prior created).drop prior.length,
        t.mute = true) ∧
    (∀ (prior : List Track) (clips : List ClipMeta) (orig : BAction),
      prior ≠ [] →
      ∀ t ∈ (splitFromMetadataTracks off prior clips orig).drop
          prior.length,
        t.mute = true) := by
  refine ⟨?_, ?_, ?_, ?_⟩
  · intro created hne
    rw [assembleTracks, List.nil_append]
    exact unmuteFirst_map_mute _ (fun _ => rfl) created hne
  · intro clips orig hne
    rw [splitFromMetadataTracks, List.nil_append, splitFromMetadataActions,
      List.map_map]
    exact unmuteFirst_map_mute _ (fun _ => rfl) clips hne
  · intro prior created hp t ht
    rw [assembleTracks, unmuteFirst_append_drop hp] at ht
    obtain ⟨x, _, rfl⟩ := List.mem_map.mp ht
    rfl
  · intro prior clips orig hp t ht
    rw [splitFromMetadataTracks, unmuteFirst_append_drop hp] at ht
    obtain ⟨x, _, rfl⟩ := List.mem_map.mp ht
    rfl

theorem C7_amended_witness :
    (splitFromMetadataTracks true [] [clipDemo, clipDemo2] actDemo).map
        Track.mute
      = [false, true] ∧
    (∀ t ∈ (splitFromMetadataTracks true priorDemo [clipDemo]
        actDemo).drop priorDemo.length, t.mute = true) := by
  constructor
  · have h := (C7_amended true).2.1 [clipDemo, clipDemo2] actDemo (by simp)
    simpa using h
  · exact (C7_amended true).2.2.2 priorDemo [clipDemo] actDemo
      (by simp [priorDemo])

/-! ### Claim C9 -/

/-- C9: when the JSON sidecar next to the chosen FBX does not exist,
the import operator does not fail: it performs the plain FBX import,
splits nothing, and returns FINISHED. -/
theorem C9_missing_sidecar (env : ImportEnv)
    (h : env.sidecarExists = false) :
    importWithMetadataExecute env
      = { status := .finished, plainFbxImport := true,
          createdActions := [], tracks := [] } := by
  rw [importWithMetadataExecute, if_pos h]

def envDemo : ImportEnv :=
  { sidecarExists := false, parsedMetadata? := none, armatureFound := true,
    hasAnimAction := true, originalAction := actDemo, priorTracks := [],
    create_nla_tracks := true, offset_to_zero := true }

theorem C9_missing_sidecar_witness :
    importWithMetadataExecute envDemo
      = { status := .finished, plainFbxImport := true,
          createdActions := [], tracks := [] } :=
  C9_missing_sidecar envDemo rfl

/-! ### Claim C5 -/

theorem insertMarker_length (m : Marker) (l : List Marker) :
    (insertMarker m l).length = l.length + 1 := by
  induction l with
  | nil => rfl
  | cons x xs ih =>
    by_cases h : m.frame < x.frame <;> simp [insertMarker, h, ih]

theorem sortMarkers_length (ms : List Marker) :
    (sortMarkers ms).length = ms.length := by
  suffices h : ∀ acc : List Marker,
      (ms.foldl (fun acc m => insertMarker m acc) acc).length
        = ms.length + acc.length by
    simpa using h []
  induction ms with
  | nil => intro acc; simp
  | cons x xs ih =>
    intro acc
    simp only [List.foldl_cons, ih, insertMarker_length, List.length_cons]
    omega

theorem pairSegments_length : ∀ (i : ℕ) (ms : List Marker),
    (pairSegments i ms).length = ms.length - 1
  | _, [] => rfl
  | _, [_] => rfl
  | i, a :: b :: rest => by
    have ih := pairSegments_length (i + 1) (b :: rest)
    simp only [pairSegments, List.length_cons] at ih ⊢
    omega

theorem pairSegments_getElem? :
    ∀ (i j : ℕ) (ms : List Marker) (a b : Marker),
      ms[j]? = some a → ms[j + 1]? = some b →
      ∃ sg, (pairSegments i ms)[j]? = some sg ∧
        sg.start_frame = (a.frame : ℚ) ∧ sg.end_frame = (b.frame : ℚ) - 1
  | _, j, [], a, b => by
    intro h _
    simp at h
  | _, j, [x], a, b => by
    intro _ h2
    rw [List.getElem?_cons_succ] at h2
    simp at h2
  | i, 0, x :: y :: rest, a, b => by
    intro h1 h2
    rw [List.getElem?_cons_zero, Option.some.injEq] at h1
    rw [List.getElem?_cons_succ, List.getElem?_cons_zero,
      Option.some.injEq] at h2
    subst h1
    subst h2
    exact ⟨⟨if x.name = "" then "Clip_" ++ toString i else x.name,
      (x.frame : ℚ), (y.frame : ℚ) - 1⟩, by simp [pairSegments], rfl, rfl⟩
  | i, j + 1, x :: y :: rest, a, b => by
    intro h1 h2
    rw [List.getElem?_cons_succ] at h1 h2
    obtain ⟨sg, hsg, h3, h4⟩ :=
      pairSegments_getElem? (i + 1) j (y :: rest) a b h1 h2
    refine ⟨sg, ?_, h3, h4⟩
    simpa [pairSegments] using hsg

theorem markerSegments_getElem? (markers : List Marker) (orig : BAction)
    (j : ℕ) (a b : Marker)
    (ha : (sortMarkers markers)[j]? = some a)
    (hb : (sortMarkers markers)[j + 1]? = some b) :
    ∃ sg, (markerSegments markers orig)[j]? = some sg ∧
      sg.start_frame = (a.frame : ℚ) ∧ sg.end_frame = (b.frame : ℚ) - 1 := by
  obtain ⟨sg, hsg, h3, h4⟩ :=
    pairSegments_getElem? 0 j (sortMarkers markers) a b ha hb
  have hlt : j + 1 < (sortMarkers markers).length :=
    (List.getElem?_eq_some.mp hb).1
  have hjp : j < (pairSegments 0 (sortMarkers markers)).length := by
    rw [pairSegments_length]
    omega
  refine ⟨sg, ?_, h3, h4⟩
  cases hlast : (sortMarkers markers).getLast? with
  | none =>
    simp only [markerSegments, hlast]
    exact hsg
  | some last =>
    simp only [markerSegments, hlast]
    by_cases hcond : ((last.frame : ℚ) < maxKeyframeTime orig)
    · rw [if_pos hcond, List.getElem?_append_left hjp]
      exact hsg
    · rw [if_neg hcond]
      exact hsg

theorem markerSegments_trailing (markers : List Marker) (orig : BAction)
    (last : Marker) (hlast : (sortMarkers markers).getLast? = some last) :
    if (last.frame : ℚ) < maxKeyframeTime orig then
      (markerSegments markers orig).length = (sortMarkers markers).length ∧
      (markerSegments markers orig).getLast? = some
        { name := trailingName (sortMarkers markers).length last,
          start_frame := (last.frame : ℚ),
          end_frame := maxKeyframeTime orig }
    else
      (markerSegments markers orig).length
        = (sortMarkers markers).length - 1 := by
  have hne : sortMarkers markers ≠ [] := by
    intro h
    rw [h] at hlast
    simp at hlast
  have hpos : 0 < (sortMarkers markers).length := List.length_pos.mpr hne
  by_cases hcond : ((last.frame : ℚ) < maxKeyframeTime orig)
  · rw [if_pos hcond]
    constructor
    · simp only [markerSegments, hlast, if_pos hcond, List.length_append,
        List.length_cons, List.length_nil, pairSegments_length]
      omega
    · simp only [markerSegments, hlast, if_pos hcond]
      exact List.getLast?_concat _
  · rw [if_neg hcond]
    simp only [markerSegments, hlast, if_neg hcond, pairSegments_length]

/-- C5 amended: after sorting, segment j spans
`[marker[j].frame, marker[j+1].frame - 1]`; a trailing segment from the
last marker to `max_frame` exists iff `max_frame` exceeds the last
marker's frame, where `max_frame` is the maximum keyframe time *clamped
below at 0* (the code initializes its running maximum at 0).  The
original claim's wording — the maximum keyframe time itself — agrees
whenever the last marker's frame is non-negative, but fails for
negative marker frames. -/
theorem C5_amended (markers : List Marker) (orig : BAction) :
    (∀ (j : ℕ) (a b : Marker),
      (sortMarkers markers)[j]? = some a →
      (sortMarkers markers)[j + 1]? = some b →
      ∃ sg, (markerSegments markers orig)[j]? = some sg ∧
        sg.start_frame = (a.frame : ℚ) ∧
        sg.end_frame = (b.frame : ℚ) - 1) ∧
    (∀ last : Marker, (sortMarkers markers).getLast? = some last →
      if (last.frame : ℚ) < maxKeyframeTime orig then
        (markerSegments markers orig).length
          = (sortMarkers markers).length ∧
        (markerSegments markers orig).getLast? = some
          { name := trailingName (sortMarkers markers).length last,
            start_frame := (last.frame : ℚ),
            end_frame := maxKeyframeTime orig }
      else
        (markerSegments markers orig).length
          = (sortMarkers markers).length - 1) :=
  ⟨fun j a b ha hb => markerSegments_getElem? markers orig j a b ha hb,
   fun last hlast => markerSegments_trailing markers orig last hlast⟩

def mk0 : Marker := ⟨"idle", 0⟩

def mk50 : Marker := ⟨"walk", 50⟩

def mk120 : Marker := ⟨"run", 120⟩

theorem C5_amended_witness :
    (∃ sg, (markerSegments [mk0, mk50, mk120] actDemo)[0]? = some sg ∧
      sg.start_frame = (mk0.frame : ℚ) ∧
      sg.end_frame = (mk50.frame : ℚ) - 1) ∧
    (if (mk120.frame : ℚ) < maxKeyframeTime actDemo then
      (markerSegments [mk0, mk50, mk120] actDemo).length
        = (sortMarkers [mk0, mk50, mk120]).length ∧
      (markerSegments [mk0, mk50, mk120] actDemo).getLast? = some
        { name := trailingName (sortMarkers [mk0, mk50, mk120]).length mk120,
          start_frame := (mk120.frame : ℚ),
          end_frame := maxKeyframeTime actDemo }
    else
      (markerSegments [mk0, mk50, mk120] actDemo).length
        = (sortMarkers [mk0, mk50, mk120]).length - 1) :=
  ⟨(C5_amended [mk0, mk50, mk120] actDemo).1 0 mk0 mk50
      (by decide) (by decide),
   (C5_amended [mk0, mk50, mk120] actDemo).2 mk120 (by decide)⟩

/-- Markers at negative frames with a single keyframe at time -10. -/
def mNeg1 : Marker := ⟨"m1", -5⟩

def mNeg2 : Marker := ⟨"m2", -3⟩

def kfNeg : Keyframe :=
  { time := -10, value := 0, interpolation := "BEZIER", easing := "AUTO",
    handle_left_type := "AUTO_CLAMPED", handle_right_type := "AUTO_CLAMPED",
    handle_left := ⟨-11, 0⟩, handle_right := ⟨-9, 0⟩ }

def actNeg : BAction := ⟨"neg", [⟨"location", 0, "", [kfNeg]⟩]⟩

/-- C5 counterexample: with markers at frames -5 and -3 and every
keyframe at time -10 (so no keyframe time exceeds the last marker's
frame), the claim predicts no trailing segment — exactly one segment —
but the code's `max_frame` starts at 0, so `0 > -3` produces a trailing
segment `[-3, 0]` and two segments result. -/
theorem C5_counterexample :
    (markerSegments [mNeg1, mNeg2] actNeg).map
        (fun sg => (sg.start_frame, sg.end_frame))
      = [(-5, -4), (-3, 0)] ∧
    (∀ fc ∈ actNeg.fcurves, ∀ kf ∈ fc.keyframe_points,
      kf.time ≤ (mNeg2.frame : ℚ)) := by
  constructor
  · norm_num [markerSegments, sortMarkers, insertMarker, pairSegments,
      maxKeyframeTime, trailingName, mNeg1, mNeg2, actNeg, kfNeg, max_def]
  · intro fc hfc kf hkf
    rw [show actNeg.fcurves = [⟨"location", 0, "", [kfNeg]⟩] from rfl,
      List.mem_singleton] at hfc
    subst hfc
    rw [show (FCurve.mk "location" 0 "" [kfNeg]).keyframe_points = [kfNeg]
        from rfl, List.mem_singleton] at hkf
    subst hkf
    norm_num [kfNeg, mNeg2]
